import Mathlib

/-!
Verification of the streaming relay bridge of the Learn_ADK_Agents repository.

The embedding below translates, at the character level, the relay logic of
`agentengine_ui_tester/main.py` and `cloudrun_agent_ui_tester/main.py`:

* the incremental concatenated-JSON decoder of the `chat` handler
  (`json.JSONDecoder().raw_decode` retried on a growing buffer, advancing past
  the consumed bytes and `lstrip`-ping trailing whitespace after each success);
* the per-event interpretation loop (text accumulation, `adk_request_credential`
  function-call handling, authUri extraction through the
  `args.authConfig.exchangedAuthCredential.oauth2.authUri` chain);
* the Flask-session level dispatch of `/chat` and `/session`.

Python dictionaries decoded from JSON are modelled by the inductive `Json`;
Python `str` values are modelled by `List Char` where a proof needs to reason
about concatenation, and byte chunks arriving from the HTTP response are
modelled as `List Char` chunks (multi-byte UTF-8 sequences are treated as
atomic characters).  Python truthiness of decoded values is modelled by
`jTruthy`.  Paths on which the Python code would raise an uncaught exception
for shape reasons (e.g. `.get` on a non-dict) are modelled as lookup misses;
no claim exercises such a path.
-/

/-- A decoded JSON value, the model of the objects produced by
`json.JSONDecoder().raw_decode` / `json.loads` in the source.  Numbers are kept
as their raw literal text: no claim depends on numeric values. -/
inductive Json where
  | jnull : Json
  | jbool (b : Bool) : Json
  | jnum (raw : String) : Json
  | jstr (s : String) : Json
  | jarr (elems : List Json) : Json
  | jobj (fields : List (String × Json)) : Json

/-- `d.get(key)` on a decoded object: `none` models Python `None` coming from a
missing key; a lookup on a non-object models the source only on paths where the
source itself would have a dict (see module comment). -/
def jGet (j : Json) (key : String) : Option Json :=
  match j with
  | .jobj fields => fields.lookup key
  | _ => none

/-- `d.get(key, {})`: the two-argument `dict.get` with an empty-dict default,
as used in the authUri extraction chains of both `main.py` files. -/
def jGetD (j : Json) (key : String) : Json :=
  (jGet j key).getD (.jobj [])

/-- Python truthiness of a decoded JSON value (`if x:`).  Empty string, empty
list, empty dict, `None`, `False` and zero are falsy.  Zero-ness of a number is
approximated on the raw literal; no claim involves numeric truthiness. -/
def jTruthy : Json → Bool
  | .jnull => false
  | .jbool b => b
  | .jnum raw => !(raw == "0" || raw == "-0" || raw == "0.0")
  | .jstr s => !(s == "")
  | .jarr elems => !elems.isEmpty
  | .jobj fields => !fields.isEmpty

/-- Truthiness of `session.get(k)` / a local variable holding `None` or a
decoded value. -/
def jTruthyO : Option Json → Bool
  | none => false
  | some j => jTruthy j

/-- The characters of a string literal, used to state concrete inputs. -/
def strChars (s : String) : List Char := s.data

/-! ## Incremental concatenated-JSON decoder

Model of the loop

```
decoder = json.JSONDecoder()
buffer = ""
for chunk in response.iter_content(chunk_size=None):
    buffer += chunk.decode('utf-8')
    while buffer:
        try:
            sse_data, index = decoder.raw_decode(buffer)
            ...
            buffer = buffer[index:].lstrip()
        except json.JSONDecodeError:
            break
```

`raw_decode` on this protocol's streams (concatenated serialized JSON objects)
is modelled by a character-level scanner that finds the shortest prefix of the
buffer that is a brace-complete object, tracking string literals and escapes.
On well-formed object streams this is exactly the set of prefixes
`raw_decode` accepts; a failed attempt (incomplete or malformed buffer) is
`none`, matching the `JSONDecodeError` branch that waits for more bytes. -/

def lbrace : Char := Char.ofNat 123
def rbrace : Char := Char.ofNat 125
def lbrack : Char := Char.ofNat 91
def rbrack : Char := Char.ofNat 93
def dquote : Char := Char.ofNat 34
def bslash : Char := Char.ofNat 92

/-- The whitespace set of Python's `str.lstrip()` (ASCII part). -/
def isPyWs (c : Char) : Bool :=
  c = ' ' || c = '\t' || c = '\n' || c = '\r' || c = Char.ofNat 11 || c = Char.ofNat 12

/-- `buffer.lstrip()`. -/
def lstrip (s : List Char) : List Char := s.dropWhile isPyWs

/-- Scanner state while looking for the end of a JSON object: nesting depth of
braces/brackets, whether we are inside a string literal, and whether the
previous character opened an escape sequence. -/
structure ScanState where
  depth : Nat
  inString : Bool
  esc : Bool
deriving DecidableEq

/-- One character of object-end scanning. -/
def scanStep (st : ScanState) (c : Char) : ScanState :=
  if st.inString then
    if st.esc then { st with esc := false }
    else if c = bslash then { st with esc := true }
    else if c = dquote then { st with inString := false }
    else st
  else
    if c = dquote then { st with inString := true }
    else if c = lbrace || c = lbrack then { st with depth := st.depth + 1 }
    else if c = rbrace || c = rbrack then { st with depth := st.depth - 1 }
    else st

/-- Length of the shortest prefix after which the scanner is back at depth 0
outside a string literal, i.e. the `index` returned by `raw_decode`. -/
def findCompleteAux (st : ScanState) : List Char → Option Nat
  | [] => none
  | c :: cs =>
    let st2 := scanStep st c
    if st2.depth = 0 && !st2.inString then some 1
    else (findCompleteAux st2 cs).map (· + 1)

/-- `raw_decode` attempt on the buffer: `some index` when a complete object
starts at offset 0 and ends at `index`; `none` when the buffer is empty, does
not start an object, or the object is still incomplete. -/
def findComplete (s : List Char) : Option Nat :=
  if s.head? = some lbrace then findCompleteAux ⟨0, false, false⟩ s else none

/-- A valid serialized event object: the scanner completes exactly at its end
(hence, by minimality, at no earlier offset). -/
def IsObjStr (o : List Char) : Prop := findComplete o = some o.length

instance (o : List Char) : Decidable (IsObjStr o) := by
  unfold IsObjStr; infer_instance

/-- The inner `while buffer:` loop: repeatedly decode a complete object from
the front of the buffer, advance past it and `lstrip`.  Structured with
explicit fuel (one unit per extracted object suffices since objects are
non-empty) so that concrete runs reduce definitionally. -/
def drainAux : Nat → List Char → List (List Char) × List Char
  | 0, b => ([], b)
  | fuel + 1, b =>
    match findComplete b with
    | some n =>
      let r := drainAux fuel (lstrip (b.drop n))
      (b.take n :: r.1, r.2)
    | none => ([], b)

/-- Drain all complete objects from the front of the buffer; returns the raw
text of each decoded object in order, and the undecodable remainder. -/
def drainBuffer (b : List Char) : List (List Char) × List Char :=
  drainAux b.length b

/-- One iteration of `for chunk in response.iter_content(...)`: append the
chunk to the retained buffer and drain. -/
def feedChunk (st : List (List Char) × List Char) (chunk : List Char) :
    List (List Char) × List Char :=
  let r := drainBuffer (st.2 ++ chunk)
  (st.1 ++ r.1, r.2)

/-- The whole streaming loop: feed every chunk in order, starting from an empty
buffer.  Returns the ordered raw decoded objects and the final leftover buffer
(which the source never examines). -/
def decodeStream (chunks : List (List Char)) : List (List Char) × List Char :=
  chunks.foldl feedChunk ([], [])

/-! ## JSON text parser

`raw_decode` both locates the end of an object and parses it; the scanner
above models the locating part, and the parser below models the parsing part
(it is also the model of `json.loads` on the cloudrun relay's `data:` lines).
It is a plain recursive-descent parser with fuel, so concrete runs reduce
definitionally. -/

/-- Value of a hexadecimal digit. -/
def hexVal (c : Char) : Option Nat :=
  if c.isDigit then some (c.toNat - 48)
  else if 'a' ≤ c && c ≤ 'f' then some (c.toNat - 87)
  else if 'A' ≤ c && c ≤ 'F' then some (c.toNat - 55)
  else none

/-- Single-character JSON string escapes. -/
def escChar (c : Char) : Option Char :=
  if c = dquote then some dquote
  else if c = bslash then some bslash
  else if c = '/' then some '/'
  else if c = 'b' then some (Char.ofNat 8)
  else if c = 'f' then some (Char.ofNat 12)
  else if c = 'n' then some '\n'
  else if c = 'r' then some '\r'
  else if c = 't' then some '\t'
  else none

/-- Parse the body of a string literal after the opening quote; returns the
decoded content and the remainder after the closing quote. -/
def parseStringBody : Nat → List Char → Option (List Char × List Char)
  | 0, _ => none
  | _ + 1, [] => none
  | fuel + 1, c :: cs =>
    if c = dquote then some ([], cs)
    else if c = bslash then
      match cs with
      | [] => none
      | e :: cs2 =>
        if e = 'u' then
          match cs2 with
          | a :: b :: c2 :: d :: cs3 =>
            match hexVal a, hexVal b, hexVal c2, hexVal d with
            | some ha, some hb, some hc, some hd =>
              (parseStringBody fuel cs3).map
                (fun r => (Char.ofNat (((ha * 16 + hb) * 16 + hc) * 16 + hd) :: r.1, r.2))
            | _, _, _, _ => none
          | _ => none
        else
          match escChar e with
          | some ec => (parseStringBody fuel cs2).map (fun r => (ec :: r.1, r.2))
          | none => none
    else (parseStringBody fuel cs).map (fun r => (c :: r.1, r.2))

/-- Characters that may occur in a number literal. -/
def isNumChar (c : Char) : Bool :=
  c.isDigit || c = '-' || c = '+' || c = '.' || c = 'e' || c = 'E'

/-- Parse a number literal (kept as raw text). -/
def parseNumber (s : List Char) : Option (Json × List Char) :=
  let lit := s.takeWhile isNumChar
  if lit.isEmpty then none
  else if lit.head? = some '-' || (lit.head?.map Char.isDigit).getD false then
    some (.jnum (String.mk lit), s.drop lit.length)
  else none

/-- Match a fixed literal such as `rue` / `alse` / `ull`. -/
def stripLit (lit : List Char) (s : List Char) : Option (List Char) :=
  if s.take lit.length = lit then some (s.drop lit.length) else none

/-- JSON whitespace as accepted by `json.loads`. -/
def isJsonWs (c : Char) : Bool := c = ' ' || c = '\t' || c = '\n' || c = '\r'

/-- Skip JSON whitespace. -/
def skipWs (s : List Char) : List Char := s.dropWhile isJsonWs

mutual

/-- Parse one JSON value (whitespace-tolerant on the left). -/
def parseVal : Nat → List Char → Option (Json × List Char)
  | 0, _ => none
  | fuel + 1, s =>
    match skipWs s with
    | [] => none
    | c :: cs =>
      if c = lbrace then
        match skipWs cs with
        | [] => none
        | d :: ds =>
          if d = rbrace then some (.jobj [], ds)
          else
            match parseMembers fuel (d :: ds) with
            | some (fields, rest) => some (.jobj fields, rest)
            | none => none
      else if c = lbrack then
        match skipWs cs with
        | [] => none
        | d :: ds =>
          if d = rbrack then some (.jarr [], ds)
          else
            match parseElems fuel (d :: ds) with
            | some (elems, rest) => some (.jarr elems, rest)
            | none => none
      else if c = dquote then
        match parseStringBody (cs.length + 1) cs with
        | some (content, rest) => some (.jstr (String.mk content), rest)
        | none => none
      else if c = 't' then (stripLit (strChars "rue") cs).map (fun r => (.jbool true, r))
      else if c = 'f' then (stripLit (strChars "alse") cs).map (fun r => (.jbool false, r))
      else if c = 'n' then (stripLit (strChars "ull") cs).map (fun r => (.jnull, r))
      else parseNumber (c :: cs)

/-- Parse the members of an object after `\x7b` (first key expected at the
head, whitespace already skipped). -/
def parseMembers : Nat → List Char → Option (List (String × Json) × List Char)
  | 0, _ => none
  | _ + 1, [] => none
  | fuel + 1, c :: cs =>
    if c = dquote then
      match parseStringBody (cs.length + 1) cs with
      | some (keyChars, rest1) =>
        match skipWs rest1 with
        | ':' :: rest2 =>
          match parseVal fuel rest2 with
          | some (v, rest3) =>
            match skipWs rest3 with
            | ',' :: rest4 =>
              match parseMembers fuel (skipWs rest4) with
              | some (fields, rest5) => some ((String.mk keyChars, v) :: fields, rest5)
              | none => none
            | r :: rest4 =>
              if r = rbrace then some ([(String.mk keyChars, v)], rest4) else none
            | [] => none
          | none => none
        | _ => none
      | none => none
    else none

/-- Parse the elements of an array after `[` (first element expected). -/
def parseElems : Nat → List Char → Option (List Json × List Char)
  | 0, _ => none
  | fuel + 1, s =>
    match parseVal fuel s with
    | some (v, rest) =>
      match skipWs rest with
      | ',' :: rest2 =>
        match parseElems fuel rest2 with
        | some (vs, rest3) => some (v :: vs, rest3)
        | none => none
      | r :: rest2 => if r = rbrack then some ([v], rest2) else none
      | [] => none
    | none => none

end

/-- `json.loads`: parse one value and require only whitespace after it. -/
def parseJson (s : List Char) : Option Json :=
  match parseVal (s.length + 1) s with
  | some (j, rest) => if skipWs rest = [] then some j else none
  | none => none

/-! ## Relay response type

The JSON bodies returned by the `/chat` and `/session` Flask handlers. -/

/-- Result of a `/chat` request.  `response`/`authorizationUrl` are the 200
bodies `jsonify({'response': ...})` / `jsonify({'authorization_url': ...})`;
`error status msg` is `jsonify({'error': msg}), status`; `okError` is
`jsonify({'error': msg})` with no explicit status (HTTP 200). -/
inductive ChatResp where
  | response (body : Json)
  | authorizationUrl (uri : Json)
  | error (status : Nat) (msg : String)
  | okError (msg : String)

/-- Result of a `/session` POST. -/
inductive SessResp where
  | ok (session_id : Json)
  | err (status : Nat) (msg : String)

/-! ## agentengine_ui_tester: event interpretation

Model of the body of the SSE loop in `chat` (`main.py` lines 197-216):

```
for part in sse_data.get("content", {}).get("parts", []):
    if part.get('text'):
        text_response += part['text']
    function_call = part.get("function_call")
    if function_call and function_call.get("name") == "adk_request_credential":
        function_call_id_to_store = function_call.get("id")
        args = function_call.get("args", {})
        auth_config = args.get("authConfig")
        if auth_config:
            auth_uri = auth_config.get("exchangedAuthCredential", {}).get("oauth2", {}).get("authUri")
            if auth_uri:
                auth_config_to_store = auth_config
                auth_uri_to_return = auth_uri
```
-/

namespace AgentEngine

/-- The four local accumulators of the streaming loop.  `text_response` is the
accumulated Python string, kept as its character list. -/
structure TurnAcc where
  auth_config_to_store : Option Json
  function_call_id_to_store : Option Json
  auth_uri_to_return : Option Json
  text_response : List Char

/-- Initial accumulator values (`None`, `None`, `None`, `""`). -/
def initAcc : TurnAcc := ⟨none, none, none, []⟩

/-- `sse_data.get("content", {}).get("parts", [])`, as a list of parts.  A
non-list `parts` value is modelled as no parts (Python would iterate it or
crash; no claim exercises that shape). -/
def partsOf (sse : Json) : List Json :=
  match jGet (jGetD sse "content") "parts" with
  | some (.jarr parts) => parts
  | _ => []

/-- `function_call.get("name") == "adk_request_credential"`. -/
def isCredName (o : Option Json) : Bool :=
  match o with
  | some (.jstr s) => s == "adk_request_credential"
  | _ => false

/-- The truthy `authUri` extracted from an `authConfig` value via
`auth_config.get("exchangedAuthCredential", {}).get("oauth2", {}).get("authUri")`,
or `none` when absent or falsy. -/
def authUriOfCfg (cfg : Json) : Option Json :=
  match jGet (jGetD (jGetD cfg "exchangedAuthCredential") "oauth2") "authUri" with
  | some u => if jTruthy u then some u else none
  | none => none

/-- `if part.get('text'): text_response += part['text']` — the appended text.
A truthy non-string `text` would raise `TypeError` in Python; it is modelled
as contributing nothing (no claim exercises that shape). -/
def textOf (part : Json) : List Char :=
  match jGet part "text" with
  | some (.jstr t) => strChars t
  | _ => []

/-- One part of the agentengine streaming loop body (source order: text first,
then the credential-request function call). -/
def processPart (acc : TurnAcc) (part : Json) : TurnAcc :=
  let acc1 : TurnAcc := { acc with text_response := acc.text_response ++ textOf part }
  match jGet part "function_call" with
  | some fc =>
    if jTruthy fc && isCredName (jGet fc "name") then
      let acc2 : TurnAcc := { acc1 with function_call_id_to_store := jGet fc "id" }
      match jGet (jGetD fc "args") "authConfig" with
      | some cfg =>
        if jTruthy cfg then
          match authUriOfCfg cfg with
          | some u =>
            { acc2 with auth_config_to_store := some cfg, auth_uri_to_return := some u }
          | none => acc2
        else acc2
      | none => acc2
    else acc1
  | none => acc1

/-- One decoded event: the inner `for part in ...` loop. -/
def processEvent (acc : TurnAcc) (sse : Json) : TurnAcc :=
  (partsOf sse).foldl processPart acc

/-- The whole turn's interpretation of a decoded event sequence. -/
def runTurnEvents (events : List Json) : TurnAcc :=
  events.foldl processEvent initAcc

/-- The outcome of the initial-message turn given its decoded events
(`main.py` lines 219-225): a found authorization URI wins over the text, an
empty text falls back to the `"No response text found."` sentinel. -/
def turnOutcome (events : List Json) : ChatResp :=
  let acc := runTurnEvents events
  match acc.auth_uri_to_return with
  | some uri => .authorizationUrl uri
  | none =>
    .response (.jstr (if acc.text_response.isEmpty then "No response text found."
                      else String.mk acc.text_response))

/-- The decoded events of a chunked upstream body: raw objects sliced by the
incremental decoder, parsed.  (In the source the two steps are interleaved;
they commute because interpretation never feeds back into decoding.) -/
def eventsOfChunks (chunks : List (List Char)) : List Json :=
  (decodeStream chunks).1.filterMap parseJson

/-- The text-only collection loop of the auth-code branch
(`main.py` lines 273-275). -/
def collectFinalText (events : List Json) : List Char :=
  events.foldl (fun t e => (partsOf e).foldl (fun t p => t ++ textOf p) t) []

/-- The Flask cookie session, restricted to the keys the handlers touch. -/
structure FlaskSession where
  session_id : Option Json
  appName : Option Json
  auth_config : Option Json
  function_call_id : Option Json

/-- The `/chat` handler.  `message`/`auth_code` model key presence in the
request body (`'message' in req_data`); `chunks` models the chunked bytes of
the upstream streaming response that would be read if the upstream call is
made.  Returns the JSON reply, the session after the request, and whether an
upstream agent call was made. -/
def chat (s : FlaskSession) (message auth_code : Option Json)
    (chunks : List (List Char)) : ChatResp × FlaskSession × Bool :=
  if s.session_id.isNone then
    (.error 400 "No active session. Please create a session first.", s, false)
  else if message.isSome then
    let acc := runTurnEvents (eventsOfChunks chunks)
    match acc.auth_uri_to_return with
    | some uri =>
      (.authorizationUrl uri,
       { s with auth_config := acc.auth_config_to_store,
                function_call_id := acc.function_call_id_to_store }, true)
    | none =>
      (.response (.jstr (if acc.text_response.isEmpty then "No response text found."
                         else String.mk acc.text_response)), s, true)
  else if auth_code.isSome then
    if !jTruthyO s.auth_config || !jTruthyO s.function_call_id then
      (.error 500 "Auth config or function call ID not found in session.", s, false)
    else
      (.response (.jstr (String.mk (collectFinalText (eventsOfChunks chunks)))), s, true)
  else
    (.error 400 "Request must contain either \"message\" or \"auth_code\"", s, false)

/-- The `/session` DELETE branch: pops `session_id` and `appName` only. -/
def session_manager_delete (s : FlaskSession) : FlaskSession :=
  { s with session_id := none, appName := none }

/-- The `/session` POST branch.  `remote_id` models
`response.json()['output']['id']` of a successful upstream `create_session`
call, which is made only when the guards pass; the returned flag records
whether that call was made.  The upstream-failure 500 path is not modelled. -/
def session_manager_post (s : FlaskSession) (agent_url : Option Json)
    (remote_id : Json) : SessResp × FlaskSession × Bool :=
  if jTruthyO s.session_id then
    (.ok (s.session_id.getD .jnull), s, false)
  else if !jTruthyO agent_url then
    (.err 400 "agent_url is required to create a session", s, false)
  else
    (.ok remote_id, { s with session_id := some remote_id }, true)

end AgentEngine

/-! ## cloudrun_agent_ui_tester: SSE line interpretation

Model of the `chat` handler's stream loop (`main.py` lines 150-186): the body
is read line by line; non-empty lines starting with `data:` are
`json.loads`-parsed; a parse failure immediately returns the raw line payload
as the response body; otherwise `requestedAuthConfigs` entries and
`content.parts` are interpreted. -/

namespace CloudRun

/-- The four local accumulators of the cloudrun stream loop.  Unlike the
agentengine relay, `text_response` starts as `None` and is overwritten (not
concatenated) by each truthy text part. -/
structure CRAcc where
  auth_config_to_store : Option Json
  function_call_id_to_store : Option Json
  auth_uri_to_return : Option Json
  text_response : Option Json

/-- Initial accumulator values (all `None`). -/
def initAcc : CRAcc := ⟨none, none, none, none⟩

/-- The `(tool_id, auth_config)` items iterated when
`data.get('actions') and data['actions'].get('requestedAuthConfigs')` is
truthy, else `[]`. -/
def authCfgItems (data : Json) : List (String × Json) :=
  match jGet data "actions" with
  | some actions =>
    if jTruthy actions then
      match jGet actions "requestedAuthConfigs" with
      | some (.jobj fields) => if fields.isEmpty then [] else fields
      | _ => []
    else []
  | none => []

/-- The parts iterated when `data.get('content') and
data.get('content').get('parts')` is truthy, else `[]`. -/
def crPartsOf (data : Json) : List Json :=
  match jGet data "content" with
  | some content =>
    if jTruthy content then
      match jGet content "parts" with
      | some (.jarr parts) => parts
      | _ => []
    else []
  | none => []

/-- One `requestedAuthConfigs` item: store the config and its truthy authUri
(the extraction chain is the same as the agentengine one). -/
def processAuthCfg (acc : CRAcc) (item : String × Json) : CRAcc :=
  match AgentEngine.authUriOfCfg item.2 with
  | some u => { acc with auth_config_to_store := some item.2, auth_uri_to_return := some u }
  | none => acc

/-- One part of the cloudrun loop: the camelCase `functionCall` credential-id
check, then the overwriting text assignment (`text_response = part['text']`). -/
def processPart (acc : CRAcc) (part : Json) : CRAcc :=
  let acc1 :=
    if AgentEngine.isCredName (jGet (jGetD part "functionCall") "name") then
      { acc with function_call_id_to_store := jGet (jGetD part "functionCall") "id" }
    else acc
  match jGet part "text" with
  | some t => if jTruthy t then { acc1 with text_response := some t } else acc1
  | none => acc1

/-- One decoded `data:` event. -/
def processEvent (acc : CRAcc) (data : Json) : CRAcc :=
  (crPartsOf data).foldl processPart ((authCfgItems data).foldl processAuthCfg acc)

/-- Result of the line loop: either the accumulators at end of stream, or an
early return carrying a raw undecodable `data:` payload verbatim. -/
inductive CRResult where
  | finished (acc : CRAcc)
  | abortedRaw (data_str : List Char)

/-- The `for line in response.iter_lines()` loop.  Empty lines are skipped;
`data:`-framed payloads are parsed with `json.loads`; a `JSONDecodeError`
returns `jsonify({'response': data_str})` at once. -/
def processLines : List (List Char) → CRAcc → CRResult
  | [], acc => .finished acc
  | line :: rest, acc =>
    if line.isEmpty then processLines rest acc
    else if line.take 5 = strChars "data:" then
      let data_str := line.drop 5
      match parseJson data_str with
      | some j => processLines rest (processEvent acc j)
      | none => .abortedRaw data_str
    else processLines rest acc

/-- Turn the loop result into the handler's reply (`main.py` lines 175-186):
abort returns the raw payload as a 200 response; otherwise a found auth URI
wins, then a truthy last text, then the `'No answer from the agent.'` error
body (with no error status). -/
def turnOutcome (lines : List (List Char)) : ChatResp :=
  match processLines lines initAcc with
  | .abortedRaw data_str => .response (.jstr (String.mk data_str))
  | .finished acc =>
    match acc.auth_uri_to_return with
    | some uri => .authorizationUrl uri
    | none =>
      match acc.text_response with
      | some t => .response t
      | none => .okError "No answer from the agent."

/-- The outcome on already-decoded events (the loop with all lines decodable),
used to state turn-level properties below the framing layer. -/
def eventsOutcome (events : List Json) : ChatResp :=
  let acc := events.foldl processEvent initAcc
  match acc.auth_uri_to_return with
  | some uri => .authorizationUrl uri
  | none =>
    match acc.text_response with
    | some t => .response t
    | none => .okError "No answer from the agent."

/-- The cloudrun Flask session keys touched by the handlers. -/
structure CRSession where
  app_name : Option Json
  session_id : Option Json
  auth_config : Option Json
  function_call_id : Option Json

/-- The cloudrun `/session` POST branch: no existing-session check — every
call makes the upstream create request and overwrites `session['session_id']`.
`remote_id` models `response.json()['id']`. -/
def session_manager_post (s : CRSession) (remote_id : Json) :
    SessResp × CRSession × Bool :=
  if !jTruthyO s.app_name then
    (.err 400 "App name not found in session. Please initialize the app name.", s, false)
  else
    (.ok remote_id, { s with session_id := some remote_id }, true)

/-- The cloudrun `/session` DELETE branch: pops `session_id` only. -/
def session_manager_delete (s : CRSession) : CRSession :=
  { s with session_id := none }

/-- The reply and session effect of the cloudrun stream loop: an abort
returns the raw payload; a found auth URI is returned and the config and
function-call id are stored in the session; otherwise the last truthy text
or the error body (`main.py` lines 150-186). -/
def chatStream (s : CRSession) (lines : List (List Char)) : ChatResp × CRSession :=
  match processLines lines initAcc with
  | .abortedRaw data_str => (.response (.jstr (String.mk data_str)), s)
  | .finished acc =>
    match acc.auth_uri_to_return with
    | some uri =>
      (.authorizationUrl uri,
       { s with auth_config := acc.auth_config_to_store,
                function_call_id := acc.function_call_id_to_store })
    | none =>
      match acc.text_response with
      | some t => (.response t, s)
      | none => (.okError "No answer from the agent.", s)

/-- The cloudrun `/chat` handler (`main.py` lines 74-191): the app-name and
session guards, then the truthy-`auth_code` dispatch — its precheck rejects
with a 500 error before any upstream call when no truthy auth config or
function-call id is stored — and otherwise the streaming request (`lines`
models the SSE lines of the upstream response; the returned flag records
whether that upstream call was made).  The upstream-exception 500 path is
not modelled. -/
def chat (s : CRSession) (message auth_code : Option Json)
    (lines : List (List Char)) : ChatResp × CRSession × Bool :=
  if !jTruthyO s.app_name then
    (.error 400 "App name not found in session. Please initialize the app name.", s, false)
  else if !jTruthyO s.session_id then
    (.error 400 "No active session. Please create a new session.", s, false)
  else if jTruthyO auth_code then
    if !jTruthyO s.auth_config || !jTruthyO s.function_call_id then
      (.error 500 "Auth config or function call ID not found in session.", s, false)
    else
      let r := chatStream s lines
      (r.1, r.2, true)
  else
    let r := chatStream s lines
    (r.1, r.2, true)

end CloudRun

/-! ## Turn-level observation functions

Functions of the event stream used to state turn-level properties: the
sequence of usable credential-request URIs, the concatenation of text
fragments, and "last non-empty" selectors matching the overwrite semantics of
the loops. -/

/-- The last value produced by `f` over `l`, i.e. the final value of a
variable that is re-assigned on every `some`. -/
def lastOf {α β : Type} (f : α → Option β) (l : List α) : Option β :=
  (l.filterMap f).getLast?

namespace AgentEngine

/-- The usable credential-request authUri contributed by one part, if any —
the exact guard chain of `processPart`. -/
def credUriOfPart (part : Json) : Option Json :=
  match jGet part "function_call" with
  | some fc =>
    if jTruthy fc && isCredName (jGet fc "name") then
      match jGet (jGetD fc "args") "authConfig" with
      | some cfg => if jTruthy cfg then authUriOfCfg cfg else none
      | none => none
    else none
  | none => none

/-- All usable credential-request URIs of a turn, in arrival order. -/
def allCredUris (events : List Json) : List Json :=
  ((events.map partsOf).flatten).filterMap credUriOfPart

/-- Concatenation, in arrival order and with no separators, of all text
fragments of a turn. -/
def concatTexts (events : List Json) : List Char :=
  (((events.map partsOf).flatten).map textOf).flatten

/-- No part of any event of the turn carries a `function_call` key. -/
def onlyTextParts (events : List Json) : Bool :=
  events.all (fun e => (partsOf e).all (fun p => (jGet p "function_call").isNone))

end AgentEngine

namespace CloudRun

/-- The truthy text of one part, if any. -/
def truthyTextOf (part : Json) : Option Json :=
  match jGet part "text" with
  | some t => if jTruthy t then some t else none
  | none => none

/-- All truthy text fragments of a turn, in arrival order. -/
def allTexts (events : List Json) : List Json :=
  ((events.map crPartsOf).flatten).filterMap truthyTextOf

/-- All usable credential-request URIs announced through
`requestedAuthConfigs`, in arrival order. -/
def allCredUris (events : List Json) : List Json :=
  ((events.map (fun e => (authCfgItems e).map Prod.snd)).flatten).filterMap
    AgentEngine.authUriOfCfg

/-- No event of the turn announces a requested auth config. -/
def noAuthConfigs (events : List Json) : Bool :=
  events.all (fun e => (authCfgItems e).isEmpty)

end CloudRun


/-! ## Concrete example inputs

Serialized event objects and sessions used by the witnesses and
counterexamples below. -/

/-- A pure-text event object: one part with text `Hello`. -/
def exObjA : List Char :=
  strChars "\x7b\"content\": \x7b\"parts\": [\x7b\"text\": \"Hello\"\x7d]\x7d\x7d"

/-- A pure-text event object: one part with text ` world`. -/
def exObjB : List Char :=
  strChars "\x7b\"content\": \x7b\"parts\": [\x7b\"text\": \" world\"\x7d]\x7d\x7d"

/-- A chunking of `exObjA ++ exObjB` that splits in the middle of the second
object. -/
def exChunksMid : List (List Char) := [exObjA ++ exObjB.take 9, exObjB.drop 9]

/-- An incomplete (non-parseable) tail: a truncated serialized object. -/
def exTail : List Char := strChars "\x7b\"content\": \x7b\"pa"

/-- A single-chunk stream that ends mid-object: one full text event, then a
truncated tail. -/
def exChunksTrunc : List (List Char) := [exObjA ++ exTail]

/-- A credential-request event object (as a decoded value) whose
`adk_request_credential` function call carries the given authUri. -/
def exCredEvent (uri : String) : Json :=
  .jobj [("content", .jobj [("parts", .jarr [.jobj [
    ("function_call", .jobj [
      ("name", .jstr "adk_request_credential"),
      ("id", .jstr "fc-1"),
      ("args", .jobj [
        ("authConfig", .jobj [
          ("exchangedAuthCredential", .jobj [
            ("oauth2", .jobj [("authUri", .jstr uri)])])])])])]])])]

/-- A pure-text event object as a decoded value. -/
def exTextEvent (t : String) : Json :=
  .jobj [("content", .jobj [("parts", .jarr [.jobj [("text", .jstr t)]])])]

/-- The serialized form of a credential-request event carrying authUri
`https://auth.example/u1`. -/
def exCredObj : List Char :=
  strChars "\x7b\"content\": \x7b\"parts\": [\x7b\"function_call\": \x7b\"name\": \"adk_request_credential\", \"id\": \"fc-1\", \"args\": \x7b\"authConfig\": \x7b\"exchangedAuthCredential\": \x7b\"oauth2\": \x7b\"authUri\": \"https://auth.example/u1\"\x7d\x7d\x7d\x7d\x7d\x7d]\x7d\x7d"

/-- An agentengine session with an active remote session and no pending auth. -/
def exSession0 : AgentEngine.FlaskSession :=
  ⟨some (.jstr "sess-1"), some (.jstr "app-1"), none, none⟩

/-- A cloudrun session with an app name and an active remote session. -/
def exCRSession0 : CloudRun.CRSession :=
  ⟨some (.jstr "app-1"), some (.jstr "sess-1"), none, none⟩

/-- A cloudrun credential-request event: one `requestedAuthConfigs` entry
carrying the given authUri. -/
def exCRCredEvent (uri : String) : Json :=
  .jobj [("actions", .jobj [("requestedAuthConfigs", .jobj [("tool-1",
    .jobj [("exchangedAuthCredential", .jobj [("oauth2",
      .jobj [("authUri", .jstr uri)])])])])])]

/-- A cloudrun SSE line whose `data:` payload is not decodable JSON. -/
def exBadDataLine : List Char := strChars "data:notjson"

/-- A cloudrun SSE line carrying the serialized text event `exObjA`. -/
def exGoodDataLine : List Char := strChars "data:" ++ exObjA

/-! ## Decoder lemmas

The chunking-invariance argument: a complete object is detected at the same
offset however many further bytes follow it (`findCompleteAux_append`), no
proper prefix of a valid object is detected as complete
(`findComplete_take_obj_none`), and therefore draining any prefix of a valid
concatenated-object stream yields exactly the objects wholly contained in it
(`drainBuffer_of_valid_split`). -/

theorem findCompleteAux_bounds {st : ScanState} {s : List Char} {n : Nat}
    (h : findCompleteAux st s = some n) : 1 ≤ n ∧ n ≤ s.length := by
  induction s generalizing st n with
  | nil => simp [findCompleteAux] at h
  | cons c cs ih =>
    rw [findCompleteAux] at h
    by_cases hc : ((scanStep st c).depth = 0 && !(scanStep st c).inString) = true
    · rw [if_pos hc] at h
      cases h
      simp
    · rw [if_neg hc] at h
      rcases Option.map_eq_some'.mp h with ⟨m, hm, rfl⟩
      have := ih hm
      constructor
      · omega
      · simpa using Nat.add_le_add_right this.2 1

theorem findCompleteAux_append {st : ScanState} {s : List Char} {n : Nat}
    (h : findCompleteAux st s = some n) (t : List Char) :
    findCompleteAux st (s ++ t) = some n := by
  induction s generalizing st n with
  | nil => simp [findCompleteAux] at h
  | cons c cs ih =>
    rw [findCompleteAux] at h
    rw [List.cons_append, findCompleteAux]
    by_cases hc : ((scanStep st c).depth = 0 && !(scanStep st c).inString) = true
    · rw [if_pos hc] at h ⊢
      exact h
    · rw [if_neg hc] at h ⊢
      rcases Option.map_eq_some'.mp h with ⟨m, hm, rfl⟩
      rw [ih hm]
      rfl

theorem findCompleteAux_take_none {st : ScanState} {s : List Char} {n m : Nat}
    (h : findCompleteAux st s = some n) (hm : m < n) :
    findCompleteAux st (s.take m) = none := by
  cases htake : findCompleteAux st (s.take m) with
  | none => rfl
  | some k =>
    exfalso
    have hk := findCompleteAux_bounds htake
    have hext : findCompleteAux st (s.take m ++ s.drop m) = some k :=
      findCompleteAux_append htake (s.drop m)
    rw [List.take_append_drop] at hext
    rw [hext] at h
    cases h
    have h2 := hk.2
    rw [List.length_take] at h2
    omega

theorem isObjStr_head {o : List Char} (h : IsObjStr o) : ∃ tl, o = lbrace :: tl := by
  unfold IsObjStr findComplete at h
  cases o with
  | nil => simp at h
  | cons c cs =>
    rw [List.head?_cons] at h
    by_cases hc : c = lbrace
    · exact ⟨cs, by rw [hc]⟩
    · rw [if_neg (by simp [hc])] at h
      cases h

theorem isObjStr_aux {o : List Char} (h : IsObjStr o) :
    findCompleteAux ⟨0, false, false⟩ o = some o.length := by
  rcases isObjStr_head h with ⟨tl, heq⟩
  unfold IsObjStr findComplete at h
  rw [heq, List.head?_cons, if_pos rfl] at h
  rw [heq]
  exact h

theorem isObjStr_length_pos {o : List Char} (h : IsObjStr o) : 1 ≤ o.length :=
  (findCompleteAux_bounds (isObjStr_aux h)).1

theorem findComplete_append_obj {o : List Char} (h : IsObjStr o) (t : List Char) :
    findComplete (o ++ t) = some o.length := by
  rcases isObjStr_head h with ⟨tl, heq⟩
  have haux := findCompleteAux_append (isObjStr_aux h) t
  subst heq
  unfold findComplete
  rw [List.cons_append, List.head?_cons, if_pos rfl]
  rw [List.cons_append] at haux
  exact haux

theorem findComplete_take_obj_none {o : List Char} (h : IsObjStr o) {m : Nat}
    (hm : m < o.length) : findComplete (o.take m) = none := by
  rcases isObjStr_head h with ⟨tl, heq⟩
  have haux := findCompleteAux_take_none (isObjStr_aux h) hm
  subst heq
  cases m with
  | zero => rfl
  | succ m' =>
    unfold findComplete
    rw [List.take_succ_cons, List.head?_cons, if_pos rfl]
    rw [List.take_succ_cons] at haux
    exact haux

theorem findComplete_bounds {b : List Char} {n : Nat}
    (h : findComplete b = some n) : 1 ≤ n ∧ n ≤ b.length := by
  unfold findComplete at h
  cases b with
  | nil => simp at h
  | cons c cs =>
    rw [List.head?_cons] at h
    by_cases hc : c = lbrace
    · rw [if_pos (by rw [hc])] at h
      exact findCompleteAux_bounds h
    · rw [if_neg (by simp [hc])] at h
      cases h

theorem findComplete_nil : findComplete [] = none := rfl

theorem lstrip_length_le (s : List Char) : (lstrip s).length ≤ s.length :=
  (List.dropWhile_sublist isPyWs).length_le

theorem drainAux_fuel {fuel : Nat} : ∀ {b : List Char}, b.length ≤ fuel →
    drainAux fuel b = drainAux b.length b := by
  induction fuel using Nat.strong_induction_on with
  | _ fuel ih =>
    intro b hb
    match fuel, hb with
    | 0, hb =>
      have : b.length = 0 := Nat.le_zero.mp hb
      rw [this]
    | fuel + 1, hb =>
      cases hlen : b.length with
      | zero =>
        have : b = [] := List.length_eq_zero.mp hlen
        subst this
        rw [drainAux, drainAux]
        rfl
      | succ k =>
        rw [drainAux]
        conv_rhs => rw [drainAux]
        cases hfc : findComplete b with
        | none => rfl
        | some n =>
          dsimp only
          have hbnd := findComplete_bounds hfc
          have hrest : (lstrip (b.drop n)).length ≤ k := by
            have h1 := lstrip_length_le (b.drop n)
            have h2 : (b.drop n).length = b.length - n := List.length_drop n b
            omega
          have e1 : drainAux fuel (lstrip (b.drop n)) =
              drainAux (lstrip (b.drop n)).length (lstrip (b.drop n)) :=
            ih fuel (Nat.lt_succ_self fuel) (by omega)
          have e2 : drainAux k (lstrip (b.drop n)) =
              drainAux (lstrip (b.drop n)).length (lstrip (b.drop n)) :=
            ih k (by omega) hrest
          rw [e1, e2]

theorem drain_none {b : List Char} (h : findComplete b = none) :
    drainBuffer b = ([], b) := by
  unfold drainBuffer
  cases hlen : b.length with
  | zero => rw [drainAux]
  | succ k => rw [drainAux, h]

theorem drain_some {b : List Char} {n : Nat} (h : findComplete b = some n) :
    drainBuffer b =
      (b.take n :: (drainBuffer (lstrip (b.drop n))).1,
       (drainBuffer (lstrip (b.drop n))).2) := by
  have hbnd := findComplete_bounds h
  unfold drainBuffer
  cases hlen : b.length with
  | zero => omega
  | succ k =>
    rw [drainAux, h]
    dsimp only
    have hrest : (lstrip (b.drop n)).length ≤ k := by
      have h1 := lstrip_length_le (b.drop n)
      have h2 : (b.drop n).length = b.length - n := List.length_drop n b
      omega
    rw [drainAux_fuel hrest]

theorem drain_residual_aux : ∀ (len : Nat) (b : List Char), b.length ≤ len →
    findComplete (drainBuffer b).2 = none := by
  intro len
  induction len with
  | zero =>
    intro b hb
    have : b = [] := List.length_eq_zero.mp (Nat.le_zero.mp hb)
    subst this
    rw [drain_none findComplete_nil]
    exact findComplete_nil
  | succ k ih =>
    intro b hb
    cases hfc : findComplete b with
    | none => rw [drain_none hfc]; exact hfc
    | some n =>
      rw [drain_some hfc]
      have hbnd := findComplete_bounds hfc
      have h1 := lstrip_length_le (b.drop n)
      have h2 : (b.drop n).length = b.length - n := List.length_drop n b
      exact ih (lstrip (b.drop n)) (by omega)

theorem drain_residual (b : List Char) : findComplete (drainBuffer b).2 = none :=
  drain_residual_aux b.length b (le_refl _)

theorem valid_join_shape {os : List (List Char)} (hv : ∀ o ∈ os, IsObjStr o) :
    os.flatten = [] ∨ ∃ tl, os.flatten = lbrace :: tl := by
  cases os with
  | nil => left; rfl
  | cons o os' =>
    right
    rcases isObjStr_head (hv o (List.mem_cons_self o os')) with ⟨tlo, ho⟩
    exact ⟨tlo ++ os'.flatten, by rw [List.flatten_cons, ho, List.cons_append]⟩

theorem lstrip_of_valid_pre {os : List (List Char)} (hv : ∀ o ∈ os, IsObjStr o)
    {b u : List Char} (h : b ++ u = os.flatten) : lstrip b = b := by
  cases b with
  | nil => rfl
  | cons c bs =>
    rcases valid_join_shape hv with hnil | ⟨tl, htl⟩
    · rw [hnil] at h
      exact absurd h (by simp)
    · rw [htl, List.cons_append] at h
      have hc : c = lbrace := (List.cons.injEq _ _ _ _).mp h |>.1
      unfold lstrip
      rw [List.dropWhile_cons, if_neg (by rw [hc]; decide)]

theorem drainBuffer_of_valid_split : ∀ (os : List (List Char)),
    (∀ o ∈ os, IsObjStr o) → ∀ (b u : List Char), b ++ u = os.flatten →
    ∃ m r, m ≤ os.length ∧ drainBuffer b = (os.take m, r) ∧
      b = (os.take m).flatten ++ r ∧ ∃ w, r ++ w = (os.drop m).flatten := by
  intro os
  induction os with
  | nil =>
    intro _ b u h
    rw [List.flatten_nil] at h
    rcases List.append_eq_nil.mp h with ⟨rfl, rfl⟩
    exact ⟨0, [], Nat.le_refl 0, drain_none findComplete_nil, rfl, [], rfl⟩
  | cons o os' ih =>
    intro hv b u h
    have hvo : IsObjStr o := hv o (List.mem_cons_self o os')
    have hv' : ∀ o' ∈ os', IsObjStr o' := fun o' ho' => hv o' (List.mem_cons_of_mem o ho')
    rw [List.flatten_cons] at h
    by_cases hlt : b.length < o.length
    · -- the buffer is a proper prefix of the first object: nothing decodes yet
      have hb : b = o.take b.length := by
        have h1 : (b ++ u).take b.length = b := List.take_left b u
        rw [h] at h1
        rw [List.take_append_eq_append_take, Nat.sub_eq_zero_of_le (le_of_lt hlt),
            List.take_zero, List.append_nil] at h1
        exact h1.symm
      have hfc : findComplete b = none := by
        rw [hb]; exact findComplete_take_obj_none hvo hlt
      refine ⟨0, b, Nat.zero_le _, drain_none hfc, rfl, u, ?_⟩
      rw [List.drop_zero, List.flatten_cons]
      exact h
    · -- the first object is wholly inside the buffer: it decodes, recurse
      push_neg at hlt
      have btake : b.take o.length = o := by
        have h1 : (b ++ u).take o.length = b.take o.length := by
          rw [List.take_append_eq_append_take, Nat.sub_eq_zero_of_le hlt,
              List.take_zero, List.append_nil]
        rw [h] at h1
        rw [List.take_left o os'.flatten] at h1
        exact h1.symm
      have hbsplit : b = o ++ b.drop o.length := by
        conv_lhs => rw [← List.take_append_drop o.length b]
        rw [btake]
      have hbu' : b.drop o.length ++ u = os'.flatten := by
        have : (o ++ b.drop o.length) ++ u = o ++ os'.flatten := by rw [← hbsplit, h]
        rw [List.append_assoc] at this
        exact List.append_cancel_left this
      have hfc : findComplete b = some o.length := by
        rw [hbsplit]; exact findComplete_append_obj hvo _
      have hls : lstrip (b.drop o.length) = b.drop o.length :=
        lstrip_of_valid_pre hv' hbu'
      rcases ih hv' (b.drop o.length) u hbu' with ⟨m', r, hm', hdrain', hsplit', w, hw⟩
      refine ⟨m' + 1, r, Nat.succ_le_succ hm', ?_, ?_, w, ?_⟩
      · rw [drain_some hfc, hls, hdrain', btake, List.take_succ_cons]
      · rw [List.take_succ_cons, List.flatten_cons, List.append_assoc, ← hsplit']
        exact hbsplit
      · rw [List.drop_succ_cons]
        exact hw

theorem decode_loop (objs : List (List Char)) (hv : ∀ o ∈ objs, IsObjStr o) :
    ∀ (chunks : List (List Char)) (j : Nat) (buf : List Char),
      j ≤ objs.length →
      findComplete buf = none →
      buf ++ chunks.flatten = (objs.drop j).flatten →
      chunks.foldl feedChunk (objs.take j, buf) = (objs, []) := by
  intro chunks
  induction chunks with
  | nil =>
    intro j buf hj hfc hsplit
    rw [List.flatten_nil, List.append_nil] at hsplit
    cases hd : objs.drop j with
    | nil =>
      rw [hd, List.flatten_nil] at hsplit
      subst hsplit
      have hlen : objs.length ≤ j := by
        have hlength := congrArg List.length hd
        rw [List.length_drop] at hlength
        simp only [List.length_nil] at hlength
        omega
      rw [List.foldl_nil, List.take_of_length_le hlen]
    | cons o rest =>
      exfalso
      have ho : IsObjStr o :=
        hv o (List.drop_subset j objs (hd ▸ List.mem_cons_self o rest))
      rw [hd, List.flatten_cons] at hsplit
      rw [hsplit, findComplete_append_obj ho] at hfc
      cases hfc
  | cons c chunks' ih =>
    intro j buf hj hfc hsplit
    rw [List.foldl_cons]
    rw [List.flatten_cons] at hsplit
    have hsplit2 : (buf ++ c) ++ chunks'.flatten = (objs.drop j).flatten := by
      rw [List.append_assoc]
      exact hsplit
    have hv' : ∀ o ∈ objs.drop j, IsObjStr o :=
      fun o ho => hv o (List.drop_subset j objs ho)
    rcases drainBuffer_of_valid_split (objs.drop j) hv' (buf ++ c) chunks'.flatten hsplit2
      with ⟨m, r, hm, hdrain, hbsplit, w, hw⟩
    have hfeed : feedChunk (objs.take j, buf) c = (objs.take (j + m), r) := by
      unfold feedChunk
      dsimp only
      rw [hdrain]
      rw [← List.take_add]
    have hr : findComplete r = none := by
      have hres := drain_residual (buf ++ c)
      rw [hdrain] at hres
      exact hres
    have hlendrop : (objs.drop j).length = objs.length - j := List.length_drop j objs
    have hnews : r ++ chunks'.flatten = (objs.drop (j + m)).flatten := by
      have e1 : ((objs.drop j).take m).flatten ++ (r ++ chunks'.flatten) =
          ((objs.drop j).take m).flatten ++ ((objs.drop j).drop m).flatten := by
        rw [← List.append_assoc, ← hbsplit, hsplit2, ← List.flatten_append,
            List.take_append_drop]
      have e2 := List.append_cancel_left e1
      rw [e2, List.drop_drop]
    rw [hfeed]
    exact ih (j + m) r (by omega) hr hnews

/-- Claim C1: for every valid stream of concatenated JSON event objects and
every way of splitting the stream into chunks, feeding the chunks to the
incremental decoder yields the identical ordered sequence of decoded event
objects (namely, exactly the objects of the stream, with an empty leftover
buffer).  Equal raw slices decode to equal objects, so chunking never affects
the decoded event sequence. -/
theorem c1_decoder_chunking_invariant (objs chunks : List (List Char))
    (hv : ∀ o ∈ objs, IsObjStr o) (hsplit : chunks.flatten = objs.flatten) :
    decodeStream chunks = (objs, []) := by
  have h := decode_loop objs hv chunks 0 [] (Nat.zero_le _) findComplete_nil
    (by rw [List.nil_append, List.drop_zero]; exact hsplit)
  rw [List.take_zero] at h
  unfold decodeStream
  exact h

/-- Witness for C1: a two-object stream delivered with a chunk boundary in the
middle of the second object decodes to exactly the two objects. -/
theorem c1_decoder_chunking_invariant_witness :
    (∀ o ∈ [exObjA, exObjB], IsObjStr o) ∧
      exChunksMid.flatten = [exObjA, exObjB].flatten ∧
      decodeStream exChunksMid = ([exObjA, exObjB], []) := by
  have h1 : ∀ o ∈ [exObjA, exObjB], IsObjStr o := by decide
  have h2 : exChunksMid.flatten = [exObjA, exObjB].flatten := by decide
  exact ⟨h1, h2, c1_decoder_chunking_invariant [exObjA, exObjB] exChunksMid h1 h2⟩

/-! ## Last-assignment and concatenation fold lemmas -/

theorem getLast?_cons_or {α : Type} (a : α) (l : List α) :
    (a :: l).getLast? = l.getLast?.or (some a) := by
  have h : ([a] ++ l).getLast? = l.getLast?.or [a].getLast? := List.getLast?_append
  simpa using h

theorem lastOf_nil {α β : Type} (f : α → Option β) : lastOf f [] = none := rfl

theorem lastOf_cons {α β : Type} (f : α → Option β) (a : α) (l : List α) :
    lastOf f (a :: l) = (lastOf f l).or (f a) := by
  unfold lastOf
  rw [List.filterMap_cons]
  cases hfa : f a with
  | none => rw [Option.or_none]
  | some b => rw [getLast?_cons_or]

theorem lastOf_append {α β : Type} (f : α → Option β) (l₁ l₂ : List α) :
    lastOf f (l₁ ++ l₂) = (lastOf f l₂).or (lastOf f l₁) := by
  unfold lastOf
  rw [List.filterMap_append, List.getLast?_append]

/-- A fold whose step overrides an optional observation exactly when the
element supplies one computes the last supplied value. -/
theorem foldl_override {α β σ : Type} (step : σ → α → σ) (proj : σ → Option β)
    (f : α → Option β) (hstep : ∀ s a, proj (step s a) = (f a).or (proj s)) :
    ∀ (l : List α) (s : σ), proj (l.foldl step s) = (lastOf f l).or (proj s) := by
  intro l
  induction l with
  | nil => intro s; rw [List.foldl_nil, lastOf_nil, Option.none_or]
  | cons a l ih =>
    intro s
    rw [List.foldl_cons, ih, hstep, lastOf_cons, Option.or_assoc]

/-- Composition of `lastOf` through a flattening: the last value over the
flattened parts equals the last per-event last value. -/
theorem lastOf_flatten {α β : Type} (g : α → Option β) (ls : List (List α)) :
    lastOf (fun l => lastOf g l) ls = lastOf g ls.flatten := by
  induction ls with
  | nil => rfl
  | cons l ls ih =>
    rw [List.flatten_cons, lastOf_append, lastOf_cons, ih]

/-- A fold whose step appends the element's contribution to an accumulated
list computes the concatenation of all contributions. -/
theorem foldl_concat {α σ : Type} (step : σ → α → σ) (proj : σ → List Char)
    (f : α → List Char) (hstep : ∀ s a, proj (step s a) = proj s ++ f a) :
    ∀ (l : List α) (s : σ), proj (l.foldl step s) = proj s ++ (l.map f).flatten := by
  intro l
  induction l with
  | nil => intro s; rw [List.foldl_nil, List.map_nil, List.flatten_nil, List.append_nil]
  | cons a l ih =>
    intro s
    rw [List.foldl_cons, ih, hstep, List.map_cons, List.flatten_cons, List.append_assoc]

theorem flatten_map_flatten {α : Type} (f : α → List (List Char)) (l : List α) :
    (l.map (fun a => (f a).flatten)).flatten = ((l.map f).flatten).flatten := by
  induction l with
  | nil => rfl
  | cons a l ih =>
    rw [List.map_cons, List.flatten_cons, List.map_cons, List.flatten_cons,
        List.flatten_append, ih]

/-! ## agentengine turn lemmas -/

namespace AgentEngine

theorem processPart_auth_uri (acc : TurnAcc) (part : Json) :
    (processPart acc part).auth_uri_to_return =
      (credUriOfPart part).or acc.auth_uri_to_return := by
  unfold processPart credUriOfPart
  cases jGet part "function_call" with
  | none => rfl
  | some fc =>
    dsimp only
    by_cases hname : (jTruthy fc && isCredName (jGet fc "name")) = true
    · rw [if_pos hname, if_pos hname]
      cases jGet (jGetD fc "args") "authConfig" with
      | none => rfl
      | some cfg =>
        dsimp only
        by_cases hcfg : jTruthy cfg = true
        · rw [if_pos hcfg, if_pos hcfg]
          cases authUriOfCfg cfg with
          | none => rfl
          | some u => rfl
        · rw [if_neg hcfg, if_neg hcfg]
          rfl
    · rw [if_neg hname, if_neg hname]
      rfl

theorem processPart_text (acc : TurnAcc) (part : Json) :
    (processPart acc part).text_response = acc.text_response ++ textOf part := by
  unfold processPart
  cases jGet part "function_call" with
  | none => rfl
  | some fc =>
    dsimp only
    by_cases hname : (jTruthy fc && isCredName (jGet fc "name")) = true
    · rw [if_pos hname]
      cases jGet (jGetD fc "args") "authConfig" with
      | none => rfl
      | some cfg =>
        dsimp only
        by_cases hcfg : jTruthy cfg = true
        · rw [if_pos hcfg]
          cases authUriOfCfg cfg with
          | none => rfl
          | some u => rfl
        · rw [if_neg hcfg]
    · rw [if_neg hname]

theorem processEvent_auth_uri (acc : TurnAcc) (e : Json) :
    (processEvent acc e).auth_uri_to_return =
      (lastOf credUriOfPart (partsOf e)).or acc.auth_uri_to_return :=
  foldl_override processPart TurnAcc.auth_uri_to_return credUriOfPart
    processPart_auth_uri (partsOf e) acc

theorem runTurnEvents_auth_uri (events : List Json) :
    (runTurnEvents events).auth_uri_to_return = (allCredUris events).getLast? := by
  have h := foldl_override processEvent TurnAcc.auth_uri_to_return
    (fun e => lastOf credUriOfPart (partsOf e)) processEvent_auth_uri events initAcc
  unfold runTurnEvents
  rw [h]
  have h2 : lastOf (fun e => lastOf credUriOfPart (partsOf e)) events =
      lastOf credUriOfPart ((events.map partsOf).flatten) := by
    have h3 := lastOf_flatten credUriOfPart (events.map partsOf)
    calc lastOf (fun e => lastOf credUriOfPart (partsOf e)) events
        = lastOf (fun l => lastOf credUriOfPart l) (events.map partsOf) := by
          unfold lastOf
          rw [List.filterMap_map]
          rfl
      _ = lastOf credUriOfPart ((events.map partsOf).flatten) := h3
  rw [h2]
  show (lastOf credUriOfPart ((events.map partsOf).flatten)).or none =
    (allCredUris events).getLast?
  rw [Option.or_none]
  rfl

theorem processEvent_text (acc : TurnAcc) (e : Json) :
    (processEvent acc e).text_response =
      acc.text_response ++ ((partsOf e).map textOf).flatten :=
  foldl_concat processPart TurnAcc.text_response textOf
    processPart_text (partsOf e) acc

theorem runTurnEvents_text (events : List Json) :
    (runTurnEvents events).text_response = concatTexts events := by
  have h := foldl_concat processEvent TurnAcc.text_response
    (fun e => ((partsOf e).map textOf).flatten) processEvent_text events initAcc
  unfold runTurnEvents
  rw [h]
  show [] ++ (events.map (fun e => ((partsOf e).map textOf).flatten)).flatten =
    concatTexts events
  rw [List.nil_append]
  unfold concatTexts
  rw [List.map_flatten, List.map_map]
  exact flatten_map_flatten (fun e => (partsOf e).map textOf) events |>.trans rfl

end AgentEngine

/-! ## cloudrun turn lemmas -/

theorem foldl_preserve {α β σ : Type} (step : σ → α → σ) (proj : σ → β)
    (hstep : ∀ s a, proj (step s a) = proj s) :
    ∀ (l : List α) (s : σ), proj (l.foldl step s) = proj s := by
  intro l
  induction l with
  | nil => intro s; rfl
  | cons a l ih => intro s; rw [List.foldl_cons, ih, hstep]

namespace CloudRun

theorem crPart_auth_uri (acc : CRAcc) (part : Json) :
    (processPart acc part).auth_uri_to_return = acc.auth_uri_to_return := by
  unfold processPart
  by_cases h : AgentEngine.isCredName (jGet (jGetD part "functionCall") "name") = true
  · rw [if_pos h]
    cases jGet part "text" with
    | none => rfl
    | some t =>
      dsimp only
      by_cases ht : jTruthy t = true
      · rw [if_pos ht]
      · rw [if_neg ht]
  · rw [if_neg h]
    cases jGet part "text" with
    | none => rfl
    | some t =>
      dsimp only
      by_cases ht : jTruthy t = true
      · rw [if_pos ht]
      · rw [if_neg ht]

theorem crPart_text (acc : CRAcc) (part : Json) :
    (processPart acc part).text_response =
      (truthyTextOf part).or acc.text_response := by
  unfold processPart truthyTextOf
  by_cases h : AgentEngine.isCredName (jGet (jGetD part "functionCall") "name") = true
  · rw [if_pos h]
    cases jGet part "text" with
    | none => rfl
    | some t =>
      dsimp only
      by_cases ht : jTruthy t = true
      · rw [if_pos ht, if_pos ht]
        rfl
      · rw [if_neg ht, if_neg ht]
        rfl
  · rw [if_neg h]
    cases jGet part "text" with
    | none => rfl
    | some t =>
      dsimp only
      by_cases ht : jTruthy t = true
      · rw [if_pos ht, if_pos ht]
        rfl
      · rw [if_neg ht, if_neg ht]
        rfl

theorem processAuthCfg_auth_uri (acc : CRAcc) (item : String × Json) :
    (processAuthCfg acc item).auth_uri_to_return =
      (AgentEngine.authUriOfCfg item.2).or acc.auth_uri_to_return := by
  unfold processAuthCfg
  cases AgentEngine.authUriOfCfg item.2 with
  | none => rfl
  | some u => rfl

theorem processAuthCfg_text (acc : CRAcc) (item : String × Json) :
    (processAuthCfg acc item).text_response = acc.text_response := by
  unfold processAuthCfg
  cases AgentEngine.authUriOfCfg item.2 with
  | none => rfl
  | some u => rfl

theorem crEvent_auth_uri (acc : CRAcc) (e : Json) :
    (processEvent acc e).auth_uri_to_return =
      (lastOf AgentEngine.authUriOfCfg ((authCfgItems e).map Prod.snd)).or
        acc.auth_uri_to_return := by
  unfold processEvent
  rw [foldl_preserve processPart CRAcc.auth_uri_to_return crPart_auth_uri]
  rw [foldl_override processAuthCfg CRAcc.auth_uri_to_return
    (fun item => AgentEngine.authUriOfCfg item.2) processAuthCfg_auth_uri]
  unfold lastOf
  rw [List.filterMap_map]
  rfl

theorem crEvent_text (acc : CRAcc) (e : Json) :
    (processEvent acc e).text_response =
      (lastOf truthyTextOf (crPartsOf e)).or acc.text_response := by
  unfold processEvent
  rw [foldl_override processPart CRAcc.text_response truthyTextOf
    crPart_text]
  rw [foldl_preserve processAuthCfg CRAcc.text_response processAuthCfg_text]

theorem eventsFold_auth_uri (events : List Json) :
    ((events.foldl processEvent initAcc).auth_uri_to_return) =
      (allCredUris events).getLast? := by
  have h := foldl_override processEvent CRAcc.auth_uri_to_return
    (fun e => lastOf AgentEngine.authUriOfCfg ((authCfgItems e).map Prod.snd))
    crEvent_auth_uri events initAcc
  rw [h]
  show (lastOf (fun e => lastOf AgentEngine.authUriOfCfg ((authCfgItems e).map Prod.snd))
    events).or none = (allCredUris events).getLast?
  rw [Option.or_none]
  have h2 : lastOf (fun e => lastOf AgentEngine.authUriOfCfg ((authCfgItems e).map Prod.snd))
      events = lastOf AgentEngine.authUriOfCfg
        ((events.map (fun e => (authCfgItems e).map Prod.snd)).flatten) := by
    have h3 := lastOf_flatten AgentEngine.authUriOfCfg
      (events.map (fun e => (authCfgItems e).map Prod.snd))
    calc lastOf (fun e => lastOf AgentEngine.authUriOfCfg ((authCfgItems e).map Prod.snd)) events
        = lastOf (fun l => lastOf AgentEngine.authUriOfCfg l)
            (events.map (fun e => (authCfgItems e).map Prod.snd)) := by
          unfold lastOf
          rw [List.filterMap_map]
          rfl
      _ = _ := h3
  rw [h2]
  rfl

theorem eventsFold_text (events : List Json) :
    ((events.foldl processEvent initAcc).text_response) =
      (allTexts events).getLast? := by
  have h := foldl_override processEvent CRAcc.text_response
    (fun e => lastOf truthyTextOf (crPartsOf e)) crEvent_text events initAcc
  rw [h]
  show (lastOf (fun e => lastOf truthyTextOf (crPartsOf e)) events).or none =
    (allTexts events).getLast?
  rw [Option.or_none]
  have h2 : lastOf (fun e => lastOf truthyTextOf (crPartsOf e)) events =
      lastOf truthyTextOf ((events.map crPartsOf).flatten) := by
    have h3 := lastOf_flatten truthyTextOf (events.map crPartsOf)
    calc lastOf (fun e => lastOf truthyTextOf (crPartsOf e)) events
        = lastOf (fun l => lastOf truthyTextOf l) (events.map crPartsOf) := by
          unfold lastOf
          rw [List.filterMap_map]
          rfl
      _ = _ := h3
  rw [h2]
  rfl

end CloudRun

/-! ## Turn outcome lemmas -/

namespace AgentEngine

theorem turnOutcome_auth {events : List Json} {u : Json}
    (h : (allCredUris events).getLast? = some u) :
    turnOutcome events = .authorizationUrl u := by
  unfold turnOutcome
  dsimp only
  rw [runTurnEvents_auth_uri, h]

theorem turnOutcome_text {events : List Json}
    (h : (allCredUris events).getLast? = none) :
    turnOutcome events =
      .response (.jstr (if (concatTexts events).isEmpty then "No response text found."
                        else String.mk (concatTexts events))) := by
  unfold turnOutcome
  dsimp only
  rw [runTurnEvents_auth_uri, h, runTurnEvents_text]

theorem onlyText_no_cred {events : List Json} (h : onlyTextParts events = true) :
    allCredUris events = [] := by
  unfold allCredUris
  rw [List.filterMap_eq_nil_iff]
  intro p hp
  rw [List.mem_flatten] at hp
  obtain ⟨l, hl, hpl⟩ := hp
  rw [List.mem_map] at hl
  obtain ⟨e, he, rfl⟩ := hl
  unfold onlyTextParts at h
  rw [List.all_eq_true] at h
  have h2 := h e he
  rw [List.all_eq_true] at h2
  have h3 := h2 p hpl
  unfold credUriOfPart
  cases hfc : jGet p "function_call" with
  | none => rfl
  | some fc =>
    rw [hfc] at h3
    cases h3

end AgentEngine

namespace CloudRun

theorem eventsOutcome_auth {events : List Json} {u : Json}
    (h : (allCredUris events).getLast? = some u) :
    eventsOutcome events = .authorizationUrl u := by
  unfold eventsOutcome
  dsimp only
  rw [eventsFold_auth_uri, h]

theorem eventsOutcome_text {events : List Json}
    (h : (allCredUris events).getLast? = none) :
    eventsOutcome events =
      (match (allTexts events).getLast? with
       | some t => ChatResp.response t
       | none => ChatResp.okError "No answer from the agent.") := by
  unfold eventsOutcome
  dsimp only
  rw [eventsFold_auth_uri, h, eventsFold_text]

theorem noAuth_no_cred {events : List Json} (h : noAuthConfigs events = true) :
    allCredUris events = [] := by
  unfold allCredUris
  rw [List.filterMap_eq_nil_iff]
  intro cfg hcfg
  rw [List.mem_flatten] at hcfg
  obtain ⟨l, hl, hcl⟩ := hcfg
  rw [List.mem_map] at hl
  obtain ⟨e, he, rfl⟩ := hl
  unfold noAuthConfigs at h
  rw [List.all_eq_true] at h
  have h2 := h e he
  rw [List.isEmpty_iff] at h2
  rw [h2] at hcl
  cases hcl

end CloudRun

/-! ## Claims C2 and C3 -/

/-- Counterexample to claim C2 as stated: in a turn with two usable credential
requests carrying different URIs, the relay returns the URI of the *last*
request, not the first. -/
theorem c2_counterexample :
    AgentEngine.turnOutcome
        [exCredEvent "https://auth.example/u1", exCredEvent "https://auth.example/u2"] =
      .authorizationUrl (.jstr "https://auth.example/u2") ∧
    (AgentEngine.allCredUris
        [exCredEvent "https://auth.example/u1", exCredEvent "https://auth.example/u2"]).head? =
      some (.jstr "https://auth.example/u1") ∧
    Json.jstr "https://auth.example/u2" ≠ Json.jstr "https://auth.example/u1" := by
  refine ⟨rfl, rfl, ?_⟩
  intro h
  injection h with h2
  exact absurd h2 (by decide)

/-- Claim C2 (amended): in a turn whose events contain at least one usable
credential request, both relays return the AuthorizationRequired outcome
carrying the URI of the *last* such credential request (each later usable
request overwrites the stored URI), and accumulated text is not returned. -/
theorem c2_last_usable_cred_request_wins :
    (∀ (events : List Json) (u : Json),
      (AgentEngine.allCredUris events).getLast? = some u →
        AgentEngine.turnOutcome events = .authorizationUrl u) ∧
    (∀ (events : List Json) (u : Json),
      (CloudRun.allCredUris events).getLast? = some u →
        CloudRun.eventsOutcome events = .authorizationUrl u) :=
  ⟨fun _ _ h => AgentEngine.turnOutcome_auth h,
   fun _ _ h => CloudRun.eventsOutcome_auth h⟩

/-- Witness for C2: concrete turns with a text part and two credential
requests end in the AuthorizationRequired outcome with the last URI. -/
theorem c2_last_usable_cred_request_wins_witness :
    AgentEngine.turnOutcome
        [exTextEvent "ignored", exCredEvent "https://auth.example/u1",
         exCredEvent "https://auth.example/u2"] =
      .authorizationUrl (.jstr "https://auth.example/u2") ∧
    CloudRun.eventsOutcome [exCRCredEvent "https://auth.example/u3"] =
      .authorizationUrl (.jstr "https://auth.example/u3") :=
  ⟨c2_last_usable_cred_request_wins.1 _ _ rfl,
   c2_last_usable_cred_request_wins.2 _ _ rfl⟩

/-- Counterexample to claim C3 as stated: in the cloudrun relay a turn with
two text-only events returns only the last fragment, not the concatenation
of all fragments. -/
theorem c3_counterexample :
    CloudRun.eventsOutcome [exTextEvent "A", exTextEvent "B"] =
      .response (.jstr "B") ∧
    Json.jstr "B" ≠ Json.jstr "AB" := by
  refine ⟨rfl, ?_⟩
  intro h
  injection h with h2
  exact absurd h2 (by decide)

/-- Claim C3 (amended): for a turn whose events contain only text parts, the
agentengine relay returns the concatenation, in arrival order with no
separators, of all text fragments, and the sentinel `"No response text
found."` when that concatenation is empty; the cloudrun relay instead returns
only the last truthy text fragment, and the error body `"No answer from the
agent."` when there is none. -/
theorem c3_text_aggregation :
    (∀ events : List Json, AgentEngine.onlyTextParts events = true →
      AgentEngine.turnOutcome events =
        .response (.jstr (if (AgentEngine.concatTexts events).isEmpty
                          then "No response text found."
                          else String.mk (AgentEngine.concatTexts events)))) ∧
    (∀ events : List Json, CloudRun.noAuthConfigs events = true →
      CloudRun.eventsOutcome events =
        (match (CloudRun.allTexts events).getLast? with
         | some t => ChatResp.response t
         | none => ChatResp.okError "No answer from the agent.")) :=
  ⟨fun _ h => AgentEngine.turnOutcome_text
      (by rw [AgentEngine.onlyText_no_cred h]; rfl),
   fun _ h => CloudRun.eventsOutcome_text
      (by rw [CloudRun.noAuth_no_cred h]; rfl)⟩

/-- Witness for C3: a two-text-event turn concatenates on the agentengine
relay; an all-empty-text agentengine turn yields the sentinel; the cloudrun
relay keeps the last fragment. -/
theorem c3_text_aggregation_witness :
    AgentEngine.turnOutcome [exTextEvent "Hello", exTextEvent " world"] =
      .response (.jstr "Hello world") ∧
    AgentEngine.turnOutcome [exTextEvent ""] =
      .response (.jstr "No response text found.") ∧
    CloudRun.eventsOutcome [exTextEvent "A", exTextEvent "B"] =
      .response (.jstr "B") :=
  ⟨(c3_text_aggregation.1 [exTextEvent "Hello", exTextEvent " world"] rfl).trans rfl,
   (c3_text_aggregation.1 [exTextEvent ""] rfl).trans rfl,
   (c3_text_aggregation.2 [exTextEvent "A", exTextEvent "B"] rfl).trans rfl⟩

/-! ## Claim C4: pending-auth lifecycle -/

set_option maxRecDepth 8000 in
/-- Counterexample to claim C4 as stated: after a turn that stored pending
auth, a subsequent auth-code submission succeeds (returns the final text and
makes the upstream call) yet the pending `auth_config` is still set in the
session — `resumeTurn` never clears it, so the claimed invariant fails. -/
theorem c4_counterexample :
    (AgentEngine.chat ((AgentEngine.chat exSession0 (some (.jstr "hi")) none
        [exCredObj]).2.1) none (some (.jstr "code-1")) [exObjA]).1 =
      .response (.jstr "Hello") ∧
    (AgentEngine.chat ((AgentEngine.chat exSession0 (some (.jstr "hi")) none
        [exCredObj]).2.1) none (some (.jstr "code-1")) [exObjA]).2.2 = true ∧
    (AgentEngine.chat ((AgentEngine.chat exSession0 (some (.jstr "hi")) none
        [exCredObj]).2.1) none (some (.jstr "code-1")) [exObjA]).2.1.auth_config.isSome
      = true :=
  ⟨rfl, rfl, rfl⟩

/-- Claim C4 (amended): the auth-code branch of `chat` never mutates the
session — in particular a successful resume does *not* clear the stored
pending auth state, which therefore persists after the turn ends. -/
theorem c4_resume_preserves_session (s : AgentEngine.FlaskSession) (c : Json)
    (chunks : List (List Char)) :
    (AgentEngine.chat s none (some c) chunks).2.1 = s := by
  unfold AgentEngine.chat
  by_cases h1 : s.session_id.isNone = true
  · rw [if_pos h1]
  · rw [if_neg h1, if_neg (show ¬((none : Option Json).isSome = true) by simp),
        if_pos (show (some c).isSome = true by simp)]
    by_cases h2 : (!jTruthyO s.auth_config || !jTruthyO s.function_call_id) = true
    · rw [if_pos h2]
    · rw [if_neg h2]

/-! ## Claim C5: truncated streams -/

set_option maxRecDepth 8000 in
/-- Counterexample to claim C5 as stated: a stream that ends with a non-empty
non-parseable tail does not fail the turn — the tail is silently dropped and
the partial accumulated text is returned as a success response. -/
theorem c5_counterexample :
    (decodeStream exChunksTrunc).2 = exTail ∧ exTail ≠ [] ∧
    AgentEngine.chat exSession0 (some (.jstr "hi")) none exChunksTrunc =
      (.response (.jstr "Hello"), exSession0, true) :=
  ⟨rfl, by decide, rfl⟩

/-- Claim C5 (amended): a non-completable tail left at the end of the stream
is ignored: appending it as a final chunk changes nothing about the turn's
outcome, which is computed from the decoded events alone (accumulated text is
returned as usual; no truncation failure exists in the code). -/
theorem c5_trailing_tail_ignored (s : AgentEngine.FlaskSession) (m : Json)
    (ac : Option Json) (chunks : List (List Char)) (t : List Char)
    (h : findComplete ((decodeStream chunks).2 ++ t) = none) :
    AgentEngine.chat s (some m) ac (chunks ++ [t]) =
      AgentEngine.chat s (some m) ac chunks := by
  have hd : decodeStream (chunks ++ [t]) =
      ((decodeStream chunks).1, (decodeStream chunks).2 ++ t) := by
    have hstep : decodeStream (chunks ++ [t]) = feedChunk (decodeStream chunks) t := by
      unfold decodeStream
      rw [List.foldl_append]
      rfl
    rw [hstep]
    unfold feedChunk
    rw [drain_none h]
    dsimp only
    rw [List.append_nil]
  have he : AgentEngine.eventsOfChunks (chunks ++ [t]) =
      AgentEngine.eventsOfChunks chunks := by
    unfold AgentEngine.eventsOfChunks
    rw [hd]
  unfold AgentEngine.chat
  rw [he]

/-- Witness for C5 (amended): appending the truncated tail as an extra chunk
leaves the concrete turn unchanged. -/
theorem c5_trailing_tail_ignored_witness :
    findComplete ((decodeStream [exObjA]).2 ++ exTail) = none ∧
    AgentEngine.chat exSession0 (some (.jstr "hi")) none ([exObjA] ++ [exTail]) =
      AgentEngine.chat exSession0 (some (.jstr "hi")) none [exObjA] :=
  ⟨rfl, c5_trailing_tail_ignored exSession0 (.jstr "hi") none [exObjA] exTail rfl⟩

/-! ## Claim C6: resume without pending auth -/

/-- Counterexample to claim C6 as stated: the no-pending-auth failure is
returned with HTTP status 500, which is not a 4xx-class status. -/
theorem c6_counterexample :
    (AgentEngine.chat exSession0 none (some (.jstr "code-1")) []).1 =
      .error 500 "Auth config or function call ID not found in session." ∧
    ¬(400 ≤ 500 ∧ 500 < 500) :=
  ⟨rfl, by omega⟩

/-- Claim C6 (amended): on both relays, an auth-code submission against an
active session with no stored (truthy) auth config or function-call id fails
with the `"Auth config or function call ID not found in session."` error at
HTTP status 500 — not a 4xx-class status — and no upstream agent call is
made. -/
theorem c6_resume_without_pending :
    (∀ (s : AgentEngine.FlaskSession) (c : Json) (chunks : List (List Char)),
      s.session_id.isSome = true →
      (!jTruthyO s.auth_config || !jTruthyO s.function_call_id) = true →
      AgentEngine.chat s none (some c) chunks =
        (.error 500 "Auth config or function call ID not found in session.",
         s, false)) ∧
    (∀ (s : CloudRun.CRSession) (m : Option Json) (c : Json)
        (lines : List (List Char)),
      jTruthyO s.app_name = true → jTruthyO s.session_id = true →
      jTruthy c = true →
      (!jTruthyO s.auth_config || !jTruthyO s.function_call_id) = true →
      CloudRun.chat s m (some c) lines =
        (.error 500 "Auth config or function call ID not found in session.",
         s, false)) := by
  constructor
  · intro s c chunks h1 h2
    unfold AgentEngine.chat
    cases hs : s.session_id with
    | none => rw [hs] at h1; cases h1
    | some v =>
      rw [if_neg (show ¬((some v).isNone = true) by simp),
          if_neg (show ¬((none : Option Json).isSome = true) by simp),
          if_pos (show (some c).isSome = true by simp),
          if_pos h2]
  · intro s m c lines happ hsid hc h2
    unfold CloudRun.chat
    rw [if_neg (show ¬((!jTruthyO s.app_name) = true) by rw [happ]; simp),
        if_neg (show ¬((!jTruthyO s.session_id) = true) by rw [hsid]; simp),
        if_pos (show jTruthyO (some c) = true from hc),
        if_pos h2]

/-- Witness for C6 (amended): on each relay, a session with a remote id (and
app name) but no stored auth config rejects an auth code with the 500 error
and no upstream call. -/
theorem c6_resume_without_pending_witness :
    exSession0.session_id.isSome = true ∧
    (!jTruthyO exSession0.auth_config || !jTruthyO exSession0.function_call_id) = true ∧
    AgentEngine.chat exSession0 none (some (.jstr "code-1")) [] =
      (.error 500 "Auth config or function call ID not found in session.",
       exSession0, false) ∧
    jTruthyO exCRSession0.app_name = true ∧
    jTruthyO exCRSession0.session_id = true ∧
    CloudRun.chat exCRSession0 none (some (.jstr "code-1")) [] =
      (.error 500 "Auth config or function call ID not found in session.",
       exCRSession0, false) :=
  ⟨rfl, rfl,
   c6_resume_without_pending.1 exSession0 (.jstr "code-1") [] rfl rfl,
   rfl, rfl,
   c6_resume_without_pending.2 exCRSession0 none (.jstr "code-1") [] rfl rfl rfl rfl⟩

/-! ## Claim C7: session-create idempotence -/

/-- Counterexample to claim C7 as stated: on the cloudrun relay a second
session POST makes the upstream create call again and overwrites the stored
id — the returned id is the fresh one, not the one established first. -/
theorem c7_counterexample :
    (CloudRun.session_manager_post
        ((CloudRun.session_manager_post exCRSession0 (.jstr "r1")).2.1)
        (.jstr "r2")).1 = .ok (.jstr "r2") ∧
    (CloudRun.session_manager_post
        ((CloudRun.session_manager_post exCRSession0 (.jstr "r1")).2.1)
        (.jstr "r2")).2.2 = true ∧
    ((CloudRun.session_manager_post
        ((CloudRun.session_manager_post exCRSession0 (.jstr "r1")).2.1)
        (.jstr "r2")).2.1).session_id = some (.jstr "r2") ∧
    Json.jstr "r2" ≠ Json.jstr "r1" := by
  refine ⟨rfl, rfl, rfl, ?_⟩
  intro h
  injection h with h2
  exact absurd h2 (by decide)

/-- Claim C7 (amended): the agentengine relay's session POST is idempotent —
with a truthy stored id a second call returns that id with no upstream
create — while the cloudrun relay's session POST always makes the upstream
create call and overwrites the stored id with the fresh one. -/
theorem c7_session_create :
    (∀ (s : AgentEngine.FlaskSession) (url1 url2 : Option Json) (r1 r2 : Json),
      jTruthy r1 = true → jTruthyO s.session_id = false → jTruthyO url1 = true →
      AgentEngine.session_manager_post s url1 r1 =
        (.ok r1, { s with session_id := some r1 }, true) ∧
      AgentEngine.session_manager_post { s with session_id := some r1 } url2 r2 =
        (.ok r1, { s with session_id := some r1 }, false)) ∧
    (∀ (s : CloudRun.CRSession) (r1 r2 : Json), jTruthyO s.app_name = true →
      CloudRun.session_manager_post ((CloudRun.session_manager_post s r1).2.1) r2 =
        (.ok r2, { s with session_id := some r2 }, true)) := by
  constructor
  · intro s url1 url2 r1 r2 hr1 hs hurl
    constructor
    · unfold AgentEngine.session_manager_post
      rw [if_neg (show ¬(jTruthyO s.session_id = true) by rw [hs]; simp),
          if_neg (show ¬((!jTruthyO url1) = true) by rw [hurl]; simp)]
    · unfold AgentEngine.session_manager_post
      rw [if_pos (show jTruthyO ({ s with session_id := some r1} :
            AgentEngine.FlaskSession).session_id = true from hr1)]
      rfl
  · intro s r1 r2 happ
    have hinner : CloudRun.session_manager_post s r1 =
        (.ok r1, { s with session_id := some r1 }, true) := by
      unfold CloudRun.session_manager_post
      rw [if_neg (show ¬((!jTruthyO s.app_name) = true) by rw [happ]; simp)]
    rw [hinner]
    unfold CloudRun.session_manager_post
    rw [if_neg (show ¬((!jTruthyO ({ s with session_id := some r1} :
          CloudRun.CRSession).app_name) = true) by
        show ¬((!jTruthyO s.app_name) = true)
        rw [happ]; simp)]

/-- Witness for C7 (amended): a fresh agentengine session creates once and
then returns the stored id without re-creating; the cloudrun session store
re-creates. -/
theorem c7_session_create_witness :
    (AgentEngine.session_manager_post ⟨none, none, none, none⟩
        (some (.jstr "http://agent")) (.jstr "r1") =
      (.ok (.jstr "r1"), ⟨some (.jstr "r1"), none, none, none⟩, true) ∧
     AgentEngine.session_manager_post ⟨some (.jstr "r1"), none, none, none⟩
        (some (.jstr "http://agent")) (.jstr "r2") =
      (.ok (.jstr "r1"), ⟨some (.jstr "r1"), none, none, none⟩, false)) ∧
    CloudRun.session_manager_post
        ((CloudRun.session_manager_post exCRSession0 (.jstr "r1")).2.1) (.jstr "r2") =
      (.ok (.jstr "r2"), { exCRSession0 with session_id := some (.jstr "r2") }, true) :=
  ⟨c7_session_create.1 ⟨none, none, none, none⟩ (some (.jstr "http://agent"))
      (some (.jstr "http://agent")) (.jstr "r1") (.jstr "r2") rfl rfl rfl,
   c7_session_create.2 exCRSession0 (.jstr "r1") (.jstr "r2") rfl⟩

/-! ## Claim C8: malformed events -/

/-- Counterexample to claim C8 as stated: on the cloudrun relay an
undecodable `data:` payload aborts the turn at once and the raw payload text
is returned verbatim as the user-visible response — the following valid text
event (which alone would produce `Hello`) is never processed. -/
theorem c8_counterexample :
    CloudRun.turnOutcome [exBadDataLine, exGoodDataLine] =
      .response (.jstr "notjson") ∧
    CloudRun.turnOutcome [exGoodDataLine] = .response (.jstr "Hello") ∧
    Json.jstr "notjson" ≠ Json.jstr "Hello" := by
  refine ⟨rfl, rfl, ?_⟩
  intro h
  injection h with h2
  exact absurd h2 (by decide)

/-- Claim C8 (amended): on the agentengine relay a decoded object with no
interpretable parts contributes nothing and the turn continues over the
remaining events; on the cloudrun relay, however, a `data:` line whose
payload fails JSON decoding aborts the turn and its raw payload is returned
verbatim to the caller as the response body. -/
theorem c8_malformed_events :
    (∀ (events1 events2 : List Json) (bad : Json), AgentEngine.partsOf bad = [] →
      AgentEngine.turnOutcome (events1 ++ bad :: events2) =
        AgentEngine.turnOutcome (events1 ++ events2)) ∧
    (∀ (raw : List Char) (rest : List (List Char)), parseJson raw = none →
      CloudRun.turnOutcome ((strChars "data:" ++ raw) :: rest) =
        .response (.jstr (String.mk raw))) := by
  constructor
  · intro events1 events2 bad hbad
    have hstep : ∀ acc, AgentEngine.processEvent acc bad = acc := by
      intro acc
      unfold AgentEngine.processEvent
      rw [hbad]
      rfl
    have hrun : AgentEngine.runTurnEvents (events1 ++ bad :: events2) =
        AgentEngine.runTurnEvents (events1 ++ events2) := by
      unfold AgentEngine.runTurnEvents
      rw [List.foldl_append, List.foldl_cons, hstep, ← List.foldl_append]
    unfold AgentEngine.turnOutcome
    rw [hrun]
  · intro raw rest h
    have e : strChars "data:" ++ raw = 'd' :: 'a' :: 't' :: 'a' :: ':' :: raw := rfl
    unfold CloudRun.turnOutcome
    rw [e]
    unfold CloudRun.processLines
    rw [if_neg (show ¬(('d' :: 'a' :: 't' :: 'a' :: ':' :: raw).isEmpty = true) by simp),
        if_pos (show ('d' :: 'a' :: 't' :: 'a' :: ':' :: raw).take 5 = strChars "data:" by rfl),
        show ('d' :: 'a' :: 't' :: 'a' :: ':' :: raw).drop 5 = raw from rfl]
    dsimp only
    rw [h]

/-! ## Claim C9: session deletion -/

set_option maxRecDepth 8000 in
/-- Counterexample to claim C9 as stated: after a turn that stored pending
auth state, deleting the session removes the session id but the pending
`auth_config` and `function_call_id` are still present in the session
record. -/
theorem c9_counterexample :
    (AgentEngine.chat exSession0 (some (.jstr "hi")) none [exCredObj]).1 =
      .authorizationUrl (.jstr "https://auth.example/u1") ∧
    (AgentEngine.session_manager_delete
      ((AgentEngine.chat exSession0 (some (.jstr "hi")) none
        [exCredObj]).2.1)).auth_config.isSome = true ∧
    (AgentEngine.session_manager_delete
      ((AgentEngine.chat exSession0 (some (.jstr "hi")) none
        [exCredObj]).2.1)).function_call_id = some (.jstr "fc-1") :=
  ⟨rfl, rfl, rfl⟩

/-- Claim C9 (amended): session deletion removes only the session id (and,
on the agentengine relay, the app name); the pending auth fields
(`auth_config`, `function_call_id`) are left untouched on both relays. -/
theorem c9_delete_keeps_pending :
    (∀ s : AgentEngine.FlaskSession,
      (AgentEngine.session_manager_delete s).session_id = none ∧
      (AgentEngine.session_manager_delete s).appName = none ∧
      (AgentEngine.session_manager_delete s).auth_config = s.auth_config ∧
      (AgentEngine.session_manager_delete s).function_call_id = s.function_call_id) ∧
    (∀ s : CloudRun.CRSession,
      (CloudRun.session_manager_delete s).session_id = none ∧
      (CloudRun.session_manager_delete s).auth_config = s.auth_config ∧
      (CloudRun.session_manager_delete s).function_call_id = s.function_call_id) :=
  ⟨fun _ => ⟨rfl, rfl, rfl, rfl⟩, fun _ => ⟨rfl, rfl, rfl⟩⟩

/-! ## Claim C10: neither message nor auth code -/

/-- Claim C10: with an active session, a chat request carrying neither a
`message` nor an `auth_code` key is rejected with the 400 error naming the
two accepted keys, and no upstream call is made. -/
theorem c10_message_or_auth_code_required (s : AgentEngine.FlaskSession)
    (chunks : List (List Char)) (h : s.session_id.isSome = true) :
    AgentEngine.chat s none none chunks =
      (.error 400 "Request must contain either \"message\" or \"auth_code\"",
       s, false) := by
  unfold AgentEngine.chat
  cases hs : s.session_id with
  | none => rw [hs] at h; cases h
  | some v =>
    rw [if_neg (show ¬((some v).isNone = true) by simp),
        if_neg (show ¬((none : Option Json).isSome = true) by simp),
        if_neg (show ¬((none : Option Json).isSome = true) by simp)]

/-- Witness for C10: a session with an id rejects an empty request body with
the 400 error and no upstream call. -/
theorem c10_message_or_auth_code_required_witness :
    exSession0.session_id.isSome = true ∧
    AgentEngine.chat exSession0 none none [] =
      (.error 400 "Request must contain either \"message\" or \"auth_code\"",
       exSession0, false) :=
  ⟨rfl, c10_message_or_auth_code_required exSession0 [] rfl⟩

/-- Witness for C8 (amended): a partless decoded object in the middle of an
agentengine turn changes nothing; a concrete undecodable cloudrun `data:`
payload is echoed back verbatim. -/
theorem c8_malformed_events_witness :
    AgentEngine.partsOf (Json.jobj []) = [] ∧
    parseJson (strChars "notjson") = none ∧
    AgentEngine.turnOutcome ([exTextEvent "Hello"] ++ Json.jobj [] :: [exTextEvent "!"]) =
      AgentEngine.turnOutcome ([exTextEvent "Hello"] ++ [exTextEvent "!"]) ∧
    CloudRun.turnOutcome [strChars "data:" ++ strChars "notjson"] =
      .response (.jstr (String.mk (strChars "notjson"))) :=
  ⟨rfl, rfl,
   c8_malformed_events.1 [exTextEvent "Hello"] [exTextEvent "!"] (Json.jobj []) rfl,
   c8_malformed_events.2 (strChars "notjson") [] rfl⟩
